import Mathlib

/-!
Shallow embedding of the live-caption relay server (`ws-server.js`, the
`src/unnamed/part_000` source).  JavaScript strings are modelled as `List Char`
(`JStr`); every definition below follows the corresponding JavaScript function
line by line.  Theorems about the frozen specification claims follow the
definitions.
-/

set_option maxRecDepth 4000

/-- JavaScript strings, modelled as lists of characters. -/
abbrev JStr := List Char

/-- Whitespace test matching the characters relevant to `String.trim` and the
regex `\s` on the inputs this server handles. -/
def jsWs (c : Char) : Bool :=
  c = ' ' || c = '\t' || c = '\n' || c = '\r' || c = '\x0b' || c = '\x0c'

/-- `String.prototype.trim`: drop whitespace from both ends. -/
def jsTrim (s : JStr) : JStr :=
  ((s.dropWhile jsWs).reverse.dropWhile jsWs).reverse

/-- Helper for `split(/\s+/)` with empty pieces removed: scans `s`, building the
current word in reverse in `cur`. -/
def wordsAux : JStr → JStr → List JStr
  | [], cur => if cur = [] then [] else [cur.reverse]
  | c :: cs, cur =>
      if jsWs c then
        if cur = [] then wordsAux cs [] else cur.reverse :: wordsAux cs []
      else wordsAux cs (c :: cur)

/-- `text.trim().split(/\s+/).filter(w => w.length > 0)` from
`formatYouTubeCaption`. -/
def splitWords (s : JStr) : List JStr := wordsAux (jsTrim s) []

/-- The word-wrap loop of `formatYouTubeCaption`: accumulates finished `lines`
and the line `current` being built; mirrors the `for (const word of words)`
loop including the `break` at two lines and the silent drop of an oversized
word arriving while `current` is empty. -/
def wrapGo : List JStr → List JStr → JStr → List JStr × JStr
  | [], lines, current => (lines, current)
  | w :: ws, lines, current =>
      if current.length + w.length + 1 ≤ 32 then
        wrapGo ws lines (if current = [] then w else current ++ [' '] ++ w)
      else if current ≠ [] then
        let lines' := lines ++ [current]
        if lines'.length = 2 then (lines', w) else wrapGo ws lines' w
      else
        wrapGo ws lines current

/-- The list of wrapped lines produced by `formatYouTubeCaption` (before the
final `join('\n')`): runs the loop, then pushes the trailing `current` only
when fewer than two lines exist. -/
def wrapLines (text : JStr) : List JStr :=
  let r := wrapGo (splitWords text) [] []
  if r.2 ≠ [] ∧ r.1.length < 2 then r.1 ++ [r.2] else r.1

/-- `formatYouTubeCaption(text)`: empty input gives the empty string, otherwise
the wrapped lines joined with `\n`. -/
def formatYouTubeCaption (text : JStr) : JStr :=
  if text = [] then [] else List.intercalate ['\n'] (wrapLines text)

/-- `String.prototype.split(sep)` (keeping empty pieces), scanning helper. -/
def splitOnAux (sep : Char) : JStr → JStr → List JStr
  | [], cur => [cur.reverse]
  | c :: cs, cur =>
      if c = sep then cur.reverse :: splitOnAux sep cs []
      else splitOnAux sep cs (c :: cur)

/-- `String.prototype.split(sep)` on a single-character separator. -/
def splitOnChar (sep : Char) (s : JStr) : List JStr := splitOnAux sep s []

/-- The control characters removed in `YouTubeCaptionPublisher.publish`:
regex `[\x00-\x09\x0B-\x1F\x7F-\x9F]`. -/
def isYtControl (c : Char) : Bool :=
  c.toNat ≤ 0x09 || (0x0b ≤ c.toNat && c.toNat ≤ 0x1f) ||
    (0x7f ≤ c.toNat && c.toNat ≤ 0x9f)

/-- `.replace(/[\x00-\x09\x0B-\x1F\x7F-\x9F]/g, '')`. -/
def stripControl (s : JStr) : JStr := s.filter (fun c => !isYtControl c)

/-- Scanner for `.replace(/[ \t]+/g, ' ')`: the flag records whether the
previous character was part of a space/tab run already emitted. -/
def collapseGo : Bool → JStr → JStr
  | _, [] => []
  | inRun, c :: cs =>
      if c = ' ' || c = '\t' then
        if inRun then collapseGo true cs else ' ' :: collapseGo true cs
      else c :: collapseGo false cs

/-- `.replace(/[ \t]+/g, ' ')`. -/
def collapseSpaces (s : JStr) : JStr := collapseGo false s

/-- `line.substring(0, 32)` applied when a cleaned line exceeds 32
characters. -/
def ytTrunc32 (c : JStr) : JStr := if 32 < c.length then c.take 32 else c

/-- The per-line cleaning of `publish`: strip control characters, collapse
spaces/tabs, trim, then truncate to 32 characters when longer. -/
def ytCleanLine (l : JStr) : JStr :=
  ytTrunc32 (jsTrim (collapseSpaces (stripControl l)))

/-- `publish`'s `cleanedLines`: split the formatted caption on `\n`, keep the
lines whose trim is nonempty, truncate to at most two lines, clean each, and
drop lines that became empty. -/
def ytCleanedLines (caption : JStr) : List JStr :=
  let lines := (splitOnChar '\n' (formatYouTubeCaption caption)).filter
    (fun l => jsTrim l ≠ [])
  let lines := lines.take 2
  (lines.map ytCleanLine).filter (fun l => l ≠ [])

/-- `publish`'s `finalCaption`: the cleaned lines joined with a single space
(`cleanedLines.join(' ')`), hard-truncated to 64 characters ending in `...`
when longer than 64 (`finalCaption.substring(0, 61) + '...'`). -/
def ytFinalCaption (caption : JStr) : JStr :=
  if 64 < (List.intercalate [' '] (ytCleanedLines caption)).length then
    (List.intercalate [' '] (ytCleanedLines caption)).take 61 ++ ['.', '.', '.']
  else List.intercalate [' '] (ytCleanedLines caption)

/-- The caption text `publish` would POST: `none` when the publish is skipped
(empty caption, empty/whitespace formatted caption, or no cleaned lines);
otherwise `ytFinalCaption`. -/
def ytPublishCaption (caption : JStr) : Option JStr :=
  if caption = [] then none
  else if jsTrim (formatYouTubeCaption caption) = [] then none
  else if ytCleanedLines caption = [] then none
  else some (ytFinalCaption caption)

/-- `String.prototype.includes`, via an explicit starts-with scan. -/
def startsWithJ : JStr → JStr → Bool
  | [], _ => true
  | _ :: _, [] => false
  | a :: as, b :: bs => a = b && startsWithJ as bs

/-- `hay.includes(needle)` for JavaScript strings. -/
def jsIncludes (hay needle : JStr) : Bool :=
  match hay with
  | [] => needle.isEmpty
  | _ :: t => startsWithJ needle hay || jsIncludes t needle

/-- A token from the upstream speech service: `{text, translation_status,
is_final}`; `translation_status` is absent (`none`) or a string tag. -/
structure SonioxToken where
  text : JStr
  translation_status : Option JStr
  is_final : Bool
deriving DecidableEq

/-- The caption emissions of the `sonioxWs.on('message')` token handler, in
program order: overlay broadcast (`broadcastToCaptions`), transcript append
(`logCaption`), audience broadcast (`broadcastToAudience`), external publish
(`youtubePublisher.publish`). -/
inductive CapEmit
  | overlay (t : JStr)
  | logC (t : JStr)
  | audience (t : JStr)
  | youtube (t : JStr)
deriving DecidableEq

/-- `!t.translation_status || t.translation_status === 'original'`. -/
def tokenIsOriginal (t : SonioxToken) : Bool :=
  t.translation_status = none || t.translation_status = some "original".toList

/-- `t.translation_status === 'translation' || t.translation_status ===
'translated'`. -/
def tokenIsTranslated (t : SonioxToken) : Bool :=
  t.translation_status = some "translation".toList ||
    t.translation_status = some "translated".toList

/-- `currentSonioxConfig.sourceLanguage === currentSonioxConfig.targetLanguage
|| currentSonioxConfig.targetLanguage === 'none'`. -/
def translationDisabled (src tgt : JStr) : Bool :=
  src = tgt || tgt = "none".toList

/-- `originalTokens`: with translation disabled all tokens with nonempty text,
otherwise the tokens whose status is absent or `original`. -/
def batchOriginalTokens (src tgt : JStr) (tokens : List SonioxToken) :
    List SonioxToken :=
  if translationDisabled src tgt then tokens.filter (fun t => !t.text.isEmpty)
  else tokens.filter tokenIsOriginal

/-- `translatedTokens`: empty with translation disabled, otherwise the tokens
whose status is `translation` or `translated`. -/
def batchTranslatedTokens (src tgt : JStr) (tokens : List SonioxToken) :
    List SonioxToken :=
  if translationDisabled src tgt then [] else tokens.filter tokenIsTranslated

/-- `originalTokens.map(t => t.text || '').join('').trim()`. -/
def batchOriginalText (src tgt : JStr) (tokens : List SonioxToken) : JStr :=
  jsTrim ((batchOriginalTokens src tgt tokens).map SonioxToken.text).flatten

/-- `translatedTokens.map(t => t.text || '').join('').trim()`. -/
def batchTranslatedText (src tgt : JStr) (tokens : List SonioxToken) : JStr :=
  jsTrim ((batchTranslatedTokens src tgt tokens).map SonioxToken.text).flatten

/-- `finalXTokens.length > 0 && finalXTokens.length === xTokens.length`. -/
def batchIsFinalOf (toks : List SonioxToken) : Bool :=
  !(toks.filter SonioxToken.is_final).isEmpty &&
    (toks.filter SonioxToken.is_final).length = toks.length

/-- The emissions made for a final caption: transcript log, audience
broadcast, external publish. -/
def finalEmits (text : JStr) : List CapEmit :=
  [CapEmit.logC text, CapEmit.audience text, CapEmit.youtube text]

/-- The caption emissions of one `message` event carrying a token batch,
following the handler's branch structure: translation-only messages, then
messages containing original tokens (translated text preferred; original text
surfaced only when translation is disabled). -/
def handleTokenBatch (src tgt : JStr) (tokens : List SonioxToken) :
    List CapEmit :=
  if tokens = [] then []
  else if batchTranslatedTokens src tgt tokens ≠ [] ∧
      batchOriginalTokens src tgt tokens = [] then
    if batchTranslatedText src tgt tokens ≠ [] then
      CapEmit.overlay (batchTranslatedText src tgt tokens) ::
        (if batchIsFinalOf (batchTranslatedTokens src tgt tokens) then
          finalEmits (batchTranslatedText src tgt tokens) else [])
    else []
  else if batchOriginalTokens src tgt tokens ≠ [] then
    if batchTranslatedText src tgt tokens ≠ [] then
      CapEmit.overlay (batchTranslatedText src tgt tokens) ::
        (if batchIsFinalOf (batchTranslatedTokens src tgt tokens) then
          finalEmits (batchTranslatedText src tgt tokens) else [])
    else if batchOriginalText src tgt tokens ≠ [] then
      if translationDisabled src tgt then
        CapEmit.overlay (batchOriginalText src tgt tokens) ::
          (if batchIsFinalOf (batchOriginalTokens src tgt tokens) then
            finalEmits (batchOriginalText src tgt tokens) else [])
      else []
    else []
  else []

/-- `const RECONNECT_DELAY = 2000` (milliseconds). -/
def RECONNECT_DELAY : ℚ := 2000

/-- `const MAX_RECONNECT_ATTEMPTS = Infinity`: no finite bound on the number
of reconnect attempts. -/
def MAX_RECONNECT_ATTEMPTS : Option ℕ := none

/-- `reconnectAttempts >= MAX_RECONNECT_ATTEMPTS`: false for every finite
attempt count, because the bound is `Infinity`. -/
def maxReconnectAttemptsReached (n : ℕ) : Bool :=
  match MAX_RECONNECT_ATTEMPTS with
  | none => false
  | some m => m ≤ n

/-- `Math.min(RECONNECT_DELAY * Math.pow(1.5, reconnectAttempts - 1), 30000)`
from `scheduleReconnect`, in exact rational arithmetic (the doubles the code
computes represent these values exactly below the cap). -/
def reconnectDelayMs (attempt : ℕ) : ℚ :=
  min (RECONNECT_DELAY * (3 / 2 : ℚ) ^ (attempt - 1)) 30000

/-- The reconnect-relevant mutable connection state of the server
(`manualDisconnect`, `isReconnecting`, `reconnectTimeout`,
`reconnectAttempts`, and whether `sonioxWs` is an open socket). -/
structure UCMState where
  manualDisconnect : Bool
  isReconnecting : Bool
  reconnectTimeout : Bool
  reconnectAttempts : ℕ
  wsOpen : Bool
deriving DecidableEq

/-- `scheduleReconnect()`: returns the new state and whether a reconnect timer
was scheduled.  An active `manualDisconnect` returns early (setting only the
log-suppression flag); a pending timer while reconnecting returns early; the
attempt cap is checked (never reached, the cap is `Infinity`); otherwise the
timer is scheduled and the attempt counter incremented. -/
def scheduleReconnect (s : UCMState) : UCMState × Bool :=
  if s.manualDisconnect then ({ s with isReconnecting := true }, false)
  else if s.isReconnecting && s.reconnectTimeout then (s, false)
  else if maxReconnectAttemptsReached s.reconnectAttempts then
    ({ s with reconnectTimeout := false, isReconnecting := false }, false)
  else
    ({ s with isReconnecting := true, reconnectTimeout := true,
              reconnectAttempts := s.reconnectAttempts + 1 }, true)

/-- The ordered side effects of `shutdownSonioxConnection` (the `stop()`
operation), in program order. -/
inductive StopStep
  | setManualStop
  | resetReconnecting
  | resetConfigured
  | setDisconnectedState
  | broadcastDisconnected
  | stopHeartbeat
  | clearReconnectTimer
  | closeSocket
  | clearHandle
deriving DecidableEq, BEq

/-- The sequence of side effects `shutdownSonioxConnection` performs. -/
def stopTrace : List StopStep :=
  [StopStep.setManualStop, StopStep.resetReconnecting, StopStep.resetConfigured,
   StopStep.setDisconnectedState, StopStep.broadcastDisconnected,
   StopStep.stopHeartbeat, StopStep.clearReconnectTimer, StopStep.closeSocket,
   StopStep.clearHandle]

/-- The state after `shutdownSonioxConnection()`: manual-stop set, reconnect
flag and pending timer cleared, socket closed. -/
def shutdownSonioxConnection (s : UCMState) : UCMState :=
  { s with manualDisconnect := true, isReconnecting := false,
           reconnectTimeout := false, wsOpen := false }

/-- The events that can touch the reconnect machinery after a `stop()` and
before the next `start()`: a socket close with any code, a transport-level
audio-send failure, audio arriving while the socket is closed, a pending
reconnect timer firing, and the 1-second config-error retry timer firing. -/
inductive UCMEvent
  | closeEvt (code : ℕ)
  | audioSendError
  | audioWhileClosed
  | reconnectTimerFire
  | configRetryFire
deriving DecidableEq

/-- One event step: the new state, whether a reconnect was scheduled, and
whether a connection attempt (`connectToSoniox`) was made, each mirroring the
guards in the source handlers. -/
def ucmStep (s : UCMState) : UCMEvent → UCMState × Bool × Bool
  | UCMEvent.closeEvt code =>
      if code ≠ 1000 ∧ code ≠ 1001 ∧ s.manualDisconnect = false then
        ((scheduleReconnect s).1, (scheduleReconnect s).2, false)
      else (s, false, false)
  | UCMEvent.audioSendError =>
      ((scheduleReconnect s).1, (scheduleReconnect s).2, false)
  | UCMEvent.audioWhileClosed =>
      if s.manualDisconnect = false ∧ s.reconnectTimeout = false then
        ((scheduleReconnect s).1, (scheduleReconnect s).2, false)
      else (s, false, false)
  | UCMEvent.reconnectTimerFire =>
      if s.reconnectTimeout then
        if s.manualDisconnect = false ∧ s.wsOpen = false then
          ({ s with reconnectTimeout := false, isReconnecting := false,
                    wsOpen := true }, false, true)
        else ({ s with reconnectTimeout := false, isReconnecting := false },
          false, false)
      else (s, false, false)
  | UCMEvent.configRetryFire =>
      if s.manualDisconnect = false then
        ({ s with wsOpen := true }, false, true)
      else (s, false, false)

/-- Run a list of events, accumulating whether any reconnect was scheduled and
whether any connection attempt was made. -/
def ucmRun (s : UCMState) : List UCMEvent → UCMState × Bool × Bool
  | [] => (s, false, false)
  | e :: es =>
      ((ucmRun (ucmStep s e).1 es).1,
        (ucmStep s e).2.1 || (ucmRun (ucmStep s e).1 es).2.1,
        (ucmStep s e).2.2 || (ucmRun (ucmStep s e).1 es).2.2)

/-- Errors returned by the transcript mutation endpoints (HTTP 400, 404, 500
respectively). -/
inductive TSError
  | badRequest
  | notFound
  | writeFailed
deriving DecidableEq

/-- The externally visible side effects of a transcript mutation, listed in
completion order: in-memory index update, durable log write, change-feed
broadcast. -/
inductive TSAction
  | memUpdate
  | fileWrite
  | feedEmit
deriving DecidableEq

/-- An in-memory caption history entry (`{timestamp, text}`). -/
structure TSEntry where
  timestamp : JStr
  text : JStr
deriving DecidableEq

/-- The transcript store: the raw content of the durable `captions.log` and
the in-memory `captionHistory`. -/
structure TranscriptState where
  file : JStr
  mem : List TSEntry
deriving DecidableEq

/-- `data.split('\n').filter(line => line.trim())`. -/
def transcriptLines (file : JStr) : List JStr :=
  (splitOnChar '\n' file).filter (fun l => jsTrim l ≠ [])

/-- `line.split('\t')[0]`. -/
def lineTimestamp (l : JStr) : JStr := (splitOnChar '\t' l).headD []

/-- The log line `${timestamp}\t${text}\n` appended by `logCaption`. -/
def captionLogLine (e : TSEntry) : JStr :=
  e.timestamp ++ ['\t'] ++ e.text ++ ['\n']

/-- `captionHistory.push(entry); if (captionHistory.length > 1000)
captionHistory.shift()`. -/
def pushCaptionHistory (mem : List TSEntry) (e : TSEntry) : List TSEntry :=
  if 1000 < (mem ++ [e]).length then (mem ++ [e]).tail else mem ++ [e]

/-- `logCaption(text, isFinal)` with an explicit timestamp and durable-write
outcome: returns the new state and the completed side effects in program
order.  The in-memory push happens first, the durable append second (its
failure is caught and ignored), and the change-feed broadcast always runs. -/
def logCaption (s : TranscriptState) (ts text : JStr) (isFinal : Bool)
    (writeOk : Bool) : TranscriptState × List TSAction :=
  if text = [] ∨ isFinal = false then (s, [])
  else
    ({ file := if writeOk then s.file ++ captionLogLine ⟨ts, text⟩ else s.file,
       mem := pushCaptionHistory s.mem ⟨ts, text⟩ },
     TSAction.memUpdate ::
       ((if writeOk then [TSAction.fileWrite] else []) ++ [TSAction.feedEmit]))

/-- `captionHistory.find(c => c.timestamp === timestamp)` followed by a text
assignment: updates the first matching entry only. -/
def updateFirst (mem : List TSEntry) (ts newText : JStr) : List TSEntry :=
  match mem with
  | [] => []
  | e :: es =>
      if e.timestamp = ts then { e with text := newText } :: es
      else e :: updateFirst es ts newText

/-- `captionHistory.findIndex` followed by `splice(i, 1)`: removes the first
matching entry only. -/
def removeFirst (mem : List TSEntry) (ts : JStr) : List TSEntry :=
  match mem with
  | [] => []
  | e :: es => if e.timestamp = ts then es else e :: removeFirst es ts

/-- The full-file rewrite performed by `/transcript/edit`:
`lines.map(...)` then `join('\n') + '\n'`. -/
def editedLogFile (file ts newText : JStr) : JStr :=
  List.intercalate ['\n'] ((transcriptLines file).map (fun l =>
    if lineTimestamp l = ts then ts ++ ['\t'] ++ newText else l)) ++ ['\n']

/-- The full-file rewrite performed by `/transcript/delete`:
`lines.filter(...)` then `join('\n') + '\n'`. -/
def deletedLogFile (file ts : JStr) : JStr :=
  List.intercalate ['\n'] ((transcriptLines file).filter
    (fun l => lineTimestamp l ≠ ts)) ++ ['\n']

/-- `app.post('/transcript/edit')`: 400 on missing fields; 404 (no write) when
no log line's first tab-field matches; 500 (state unchanged) when the rewrite
fails; otherwise file rewrite, then memory update, then feed broadcast. -/
def transcriptEdit (s : TranscriptState) (ts newText : JStr)
    (writeOk : Bool) : TranscriptState × Option TSError × List TSAction :=
  if ts = [] ∨ newText = [] then (s, some TSError.badRequest, [])
  else if ∀ l ∈ transcriptLines s.file, lineTimestamp l ≠ ts then
    (s, some TSError.notFound, [])
  else if writeOk = false then (s, some TSError.writeFailed, [])
  else
    ({ file := editedLogFile s.file ts newText,
       mem := updateFirst s.mem ts newText },
     none, [TSAction.fileWrite, TSAction.memUpdate, TSAction.feedEmit])

/-- `app.post('/transcript/delete')`: 400 on a missing timestamp; 404 (no
write) when no log line matches; 500 (state unchanged) when the rewrite
fails; otherwise file rewrite, then memory update, then feed broadcast. -/
def transcriptDelete (s : TranscriptState) (ts : JStr)
    (writeOk : Bool) : TranscriptState × Option TSError × List TSAction :=
  if ts = [] then (s, some TSError.badRequest, [])
  else if ∀ l ∈ transcriptLines s.file, lineTimestamp l ≠ ts then
    (s, some TSError.notFound, [])
  else if writeOk = false then (s, some TSError.writeFailed, [])
  else
    ({ file := deletedLogFile s.file ts, mem := removeFirst s.mem ts },
     none, [TSAction.fileWrite, TSAction.memUpdate, TSAction.feedEmit])

/-- The three Transcript Store mutations. -/
inductive TSMutation
  | append (ts text : JStr)
  | edit (ts newText : JStr)
  | delete (ts : JStr)
deriving DecidableEq

/-- Run one mutation against the store (appends report no error: `logCaption`
returns nothing and swallows write failures). -/
def runMutation (s : TranscriptState) (m : TSMutation) (writeOk : Bool) :
    TranscriptState × Option TSError × List TSAction :=
  match m with
  | TSMutation.append ts text =>
      ((logCaption s ts text true writeOk).1, none,
        (logCaption s ts text true writeOk).2)
  | TSMutation.edit ts newText => transcriptEdit s ts newText writeOk
  | TSMutation.delete ts => transcriptDelete s ts writeOk

/-- Scanner for the write-then-reflect ordering claimed of every mutation:
every `memUpdate` and every `feedEmit` in the action trace must be preceded
by a completed `fileWrite`. -/
def writeThenReflect : List TSAction → Bool → Bool
  | [], _ => true
  | TSAction.fileWrite :: rest, _ => writeThenReflect rest true
  | _ :: rest, written => written && writeThenReflect rest written

/-- The last `n` elements of a list. -/
def lastN (n : ℕ) (l : List α) : List α := l.drop (l.length - n)

/-- Folding `logCaption` (final captions, successful writes) over a list of
entries. -/
def appendFold (s : TranscriptState) : List TSEntry → TranscriptState
  | [] => s
  | e :: es => appendFold (logCaption s e.timestamp e.text true true).1 es

/-- The retry-relevant data `publish` computes before POSTing: the cleaned
lines, the multi-line flag, and the final caption.  The source sets
`isMultiLine = false` unconditionally (`// Always treat as single-line for
YouTube compatibility`) after joining the lines with a space. -/
structure PublishAttempt where
  cleanedLines : List JStr
  isMultiLine : Bool
  finalCaption : JStr
deriving DecidableEq

/-- The attempt `publish(caption)` builds; `none` when the publish is
skipped before POSTing. -/
def buildPublishAttempt (caption : JStr) : Option PublishAttempt :=
  match ytPublishCaption caption with
  | none => none
  | some fc => some ⟨ytCleanedLines caption, false, fc⟩

/-- The retry guard in `publish`'s error handler:
`error.response.status === 400 && errorData.includes("Can't parse") &&
isMultiLine && cleanedLines.length > 0`. -/
def publishRetries (a : PublishAttempt) (status : ℕ) (body : JStr) : Bool :=
  decide (status = 400) && jsIncludes body "Can't parse".toList &&
    a.isMultiLine && !a.cleanedLines.isEmpty

/-- The number of automatic retries `publish` makes after a failed POST. -/
def publishRetryCount (a : PublishAttempt) (status : ℕ) (body : JStr) : ℕ :=
  if publishRetries a status body then 1 else 0

/-- The spec's example caption, which wraps to two cleaned lines. -/
def epExampleCaption : JStr :=
  "This is a very long sentence that exceeds the line limit by quite a lot".toList

/-- The attempt `publish` builds for `epExampleCaption`: two cleaned lines,
`isMultiLine = false`, single-line final caption. -/
def epExampleAttempt : PublishAttempt :=
  ⟨["This is a very long sentence".toList,
    "that exceeds the line limit by".toList], false,
   "This is a very long sentence that exceeds the line limit by".toList⟩

/-- A downstream error body of the multi-line-rejection class. -/
def epParseErrorBody : JStr := "Can't parse multi-line caption".toList

/-- Audience-visible service phases (`serviceStatus.status`). -/
inductive SStatus
  | offline
  | connecting
  | ready
  | live
  | paused
  | ended
deriving DecidableEq

/-- `const activeStatuses = ['ready', 'live']` from `/audience/stream`. -/
def statusActive : SStatus → Bool
  | SStatus.ready => true
  | SStatus.live => true
  | _ => false

/-- A message delivered to an audience SSE client. -/
inductive AudMsg
  | statusMsg (st : SStatus)
  | captionMsg (text : JStr)
deriving DecidableEq

/-- One connected audience client: its id and the messages it has received,
in delivery order. -/
structure AudClient where
  cid : ℕ
  received : List AudMsg
deriving DecidableEq

/-- Broadcast-hub state: the persisted transcript (caption texts in log
order), the current service status, and the connected audience clients. -/
structure AudState where
  file : List JStr
  status : SStatus
  clients : List AudClient
deriving DecidableEq

/-- The serialized events of the audience subsystem (the server is
single-threaded, so each handler runs atomically): a new SSE connection, a
final-caption append, a service status change. -/
inductive AudEvent
  | connect (cid : ℕ)
  | appendCaption (text : JStr)
  | setStatus (st : SStatus)
deriving DecidableEq

/-- The `/audience/stream` handler: registers the client, writes the current
service status, then — only when the status is in `['ready', 'live']` —
replays every caption read fresh from the log file. -/
def connectStep (s : AudState) (cid : ℕ) : AudState :=
  { s with clients := s.clients ++
      [⟨cid, AudMsg.statusMsg s.status ::
        (if statusActive s.status then s.file.map AudMsg.captionMsg
         else [])⟩] }

/-- A final caption: `logCaption` appends the line to the log, then
`broadcastToAudience` delivers it to every connected client. -/
def appendStep (s : AudState) (t : JStr) : AudState :=
  { s with file := s.file ++ [t],
           clients := s.clients.map (fun c =>
             { c with received := c.received ++ [AudMsg.captionMsg t] }) }

/-- `broadcastServiceStatus`: updates the status and notifies every connected
client. -/
def statusStep (s : AudState) (st : SStatus) : AudState :=
  { s with status := st,
           clients := s.clients.map (fun c =>
             { c with received := c.received ++ [AudMsg.statusMsg st] }) }

/-- One audience-subsystem event. -/
def audStep (s : AudState) : AudEvent → AudState
  | AudEvent.connect cid => connectStep s cid
  | AudEvent.appendCaption t => appendStep s t
  | AudEvent.setStatus st => statusStep s st

/-- Run a sequence of audience-subsystem events. -/
def runAud (s : AudState) : List AudEvent → AudState
  | [] => s
  | e :: es => runAud (audStep s e) es

/-- The caption texts in a received message sequence, in order. -/
def receivedCaptions (msgs : List AudMsg) : List JStr :=
  msgs.filterMap (fun m => match m with
    | AudMsg.captionMsg t => some t
    | _ => none)

/-- The captions appended by a list of events, in order. -/
def appendedTexts (evts : List AudEvent) : List JStr :=
  evts.filterMap (fun e => match e with
    | AudEvent.appendCaption t => some t
    | _ => none)

/-- A server state with a persisted transcript from an earlier session and
the service not yet live. -/
def preServiceState : AudState := ⟨["old".toList], SStatus.offline, []⟩

/-- The service coming live, then a caption arriving. -/
def preServiceEvents : List AudEvent :=
  [AudEvent.setStatus SStatus.ready, AudEvent.appendCaption "new".toList]

-- ===== THEOREMS =====

theorem ytCleanLine_length_le (l : JStr) : (ytCleanLine l).length ≤ 32 := by
  unfold ytCleanLine ytTrunc32
  split
  · simp [List.length_take]
  · omega

theorem ytCleanedLines_length_le (caption : JStr) :
    (ytCleanedLines caption).length ≤ 2 := by
  unfold ytCleanedLines
  refine le_trans (List.length_filter_le _ _) ?_
  rw [List.length_map]
  exact le_trans (List.length_take_le _ _) (le_refl 2)

theorem ytCleanedLines_line_le (caption : JStr) :
    ∀ l ∈ ytCleanedLines caption, l.length ≤ 32 := by
  intro l hl
  unfold ytCleanedLines at hl
  have hm := List.mem_of_mem_filter hl
  rcases List.mem_map.mp hm with ⟨a, _, ha⟩
  rw [← ha]
  exact ytCleanLine_length_le a

/-- C7: every published caption is the cleaned wrap output — at most two lines
of at most 32 characters each, joined into a single line; the joined line is
posted as-is when it fits in 64 characters, otherwise it is hard-truncated to
exactly 64 characters ending in `...`. -/
theorem published_caption_format (caption c : JStr)
    (h : ytPublishCaption caption = some c) :
    c.length ≤ 64 ∧
    (ytCleanedLines caption).length ≤ 2 ∧
    (∀ l ∈ ytCleanedLines caption, l.length ≤ 32) ∧
    (((List.intercalate [' '] (ytCleanedLines caption)).length ≤ 64 ∧
        c = List.intercalate [' '] (ytCleanedLines caption)) ∨
      (64 < (List.intercalate [' '] (ytCleanedLines caption)).length ∧
        c = (List.intercalate [' '] (ytCleanedLines caption)).take 61 ++
          ['.', '.', '.'] ∧
        c.length = 64 ∧ ∃ p, c = p ++ ['.', '.', '.'])) := by
  unfold ytPublishCaption at h
  by_cases hc : caption = []
  · simp [hc] at h
  · rw [if_neg hc] at h
    by_cases hf : jsTrim (formatYouTubeCaption caption) = []
    · rw [if_pos hf] at h; exact absurd h (by simp)
    · rw [if_neg hf] at h
      by_cases hcl : ytCleanedLines caption = []
      · rw [if_pos hcl] at h; exact absurd h (by simp)
      · rw [if_neg hcl] at h
        have hceq : c = ytFinalCaption caption := (Option.some.inj h).symm
        subst hceq
        refine ⟨?_, ytCleanedLines_length_le caption, ytCleanedLines_line_le caption, ?_⟩
        · unfold ytFinalCaption
          split
          · rename_i hlong
            rw [List.length_append, List.length_take]
            simp only [List.length_cons, List.length_nil]
            omega
          · omega
        · unfold ytFinalCaption
          split
          · rename_i hlong
            refine Or.inr ⟨hlong, rfl, ?_, ⟨_, rfl⟩⟩
            rw [List.length_append, List.length_take]
            simp only [List.length_cons, List.length_nil]
            omega
          · rename_i hshort
            exact Or.inl ⟨by omega, rfl⟩

/-- Witness for C7 at the spec's example sentence (fits in 64 characters after
joining, so published verbatim) and at a longer caption that is truncated to 64
characters ending in `...`. -/
theorem published_caption_format_witness :
    (ytCleanedLines "This is a very long sentence that exceeds the line limit by quite a lot".toList).length ≤ 2 ∧
    (ytFinalCaption "aaaaaaaaaaaaaaaa bbbbbbbbbbbbbbb cccccccccccccccc ddddddddddddddd x".toList).length ≤ 64 :=
  ⟨(published_caption_format
      "This is a very long sentence that exceeds the line limit by quite a lot".toList
      (ytFinalCaption "This is a very long sentence that exceeds the line limit by quite a lot".toList)
      (by decide)).2.1,
   (published_caption_format
      "aaaaaaaaaaaaaaaa bbbbbbbbbbbbbbb cccccccccccccccc ddddddddddddddd x".toList
      (ytFinalCaption "aaaaaaaaaaaaaaaa bbbbbbbbbbbbbbb cccccccccccccccc ddddddddddddddd x".toList)
      (by decide)).1⟩

theorem wrapGo_all_long (ws : List JStr) :
    ∀ lines : List JStr, (∀ w ∈ ws, 31 < w.length) →
      wrapGo ws lines [] = (lines, []) := by
  induction ws with
  | nil => intro lines _; rfl
  | cons w ws ih =>
      intro lines h
      have hw : 31 < w.length := h w (List.mem_cons_self w ws)
      simp only [wrapGo]
      rw [if_neg (by simp; omega), if_neg (by simp)]
      exact ih lines (fun x hx => h x (List.mem_cons_of_mem w hx))

/-- C9 counterexample: the claim that a whitespace-separated word longer than
31 characters never appears in any output line of `formatYouTubeCaption` is
false — on the input `"hi " ++ 40 × 'a'` the 40-character word becomes the
second wrapped line. -/
theorem long_word_excluded_counterexample :
    ¬ (∀ input : JStr, ∀ w ∈ splitWords input, 31 < w.length →
        ∀ l ∈ wrapLines input, jsIncludes l w = false) := by
  intro h
  have hc := h ('h' :: 'i' :: ' ' :: List.replicate 40 'a')
      (List.replicate 40 'a') (by decide) (by decide)
      (List.replicate 40 'a') (by decide)
  exact absurd hc (by decide)

/-- C9 (amended): a word longer than 31 characters is dropped only when it is
scanned while the current line is empty; when every word of the input is
longer than 31 characters — in particular for an input consisting of a single
word of 32 or more characters — `formatYouTubeCaption` returns the empty
string and the caption is never published. -/
theorem all_long_words_never_published (input : JStr)
    (h : ∀ w ∈ splitWords input, 31 < w.length) :
    formatYouTubeCaption input = [] ∧ ytPublishCaption input = none := by
  have hwrap : wrapLines input = [] := by
    unfold wrapLines
    rw [wrapGo_all_long (splitWords input) [] h]
    simp
  have hfmt : formatYouTubeCaption input = [] := by
    unfold formatYouTubeCaption
    rw [hwrap]
    split <;> rfl
  refine ⟨hfmt, ?_⟩
  unfold ytPublishCaption
  by_cases hi : input = []
  · rw [if_pos hi]
  · rw [if_neg hi, if_pos (by rw [hfmt]; rfl)]

/-- Witness for C9 (amended) at a single 32-character word. -/
theorem all_long_words_never_published_witness :
    formatYouTubeCaption (List.replicate 32 'a') = [] ∧
      ytPublishCaption (List.replicate 32 'a') = none :=
  all_long_words_never_published (List.replicate 32 'a') (by decide)

/-- C1: with translation enabled, a token batch containing original-stream
tokens whose assembled translated text is empty produces no caption emission
at all — the original-language text is withheld from every sink. -/
theorem translation_pending_no_caption (src tgt : JStr)
    (tokens : List SonioxToken)
    (henabled : translationDisabled src tgt = false)
    (horig : batchOriginalTokens src tgt tokens ≠ [])
    (htrans : batchTranslatedText src tgt tokens = []) :
    handleTokenBatch src tgt tokens = [] := by
  have htok : tokens ≠ [] := by
    intro h
    subst h
    exact horig (by simp [batchOriginalTokens, henabled])
  unfold handleTokenBatch
  rw [if_neg htok, if_neg (fun hand => horig hand.2), if_pos horig,
    if_neg (not_ne_iff.mpr htrans)]
  simp [henabled]

/-- Witness for C1: the spec's example batch — a single final source-role
token `{text:"Hello", role:original, final:true}` with translation enabled
(`ml → en`) — emits nothing. -/
theorem translation_pending_no_caption_witness :
    handleTokenBatch "ml".toList "en".toList
      [⟨"Hello".toList, some "original".toList, true⟩] = [] :=
  translation_pending_no_caption "ml".toList "en".toList
    [⟨"Hello".toList, some "original".toList, true⟩]
    (by decide) (by decide) (by decide)

/-- C5: the scheduled backoff delay for attempt `n` is
`min(2000 * 1.5^(n-1), 30000)` ms; attempts 1..5 wait 2000, 3000, 4500, 6750
and 10125 ms, every delay is capped at 30000 ms (with equality from attempt 8
on), and the attempt bound is never reached. -/
theorem reconnect_backoff_policy :
    (∀ n : ℕ, reconnectDelayMs n = min (2000 * (3 / 2 : ℚ) ^ (n - 1)) 30000) ∧
    reconnectDelayMs 1 = 2000 ∧ reconnectDelayMs 2 = 3000 ∧
    reconnectDelayMs 3 = 4500 ∧ reconnectDelayMs 4 = 6750 ∧
    reconnectDelayMs 5 = 10125 ∧
    (∀ n : ℕ, reconnectDelayMs n ≤ 30000) ∧
    (∀ n : ℕ, 8 ≤ n → reconnectDelayMs n = 30000) ∧
    (∀ n : ℕ, maxReconnectAttemptsReached n = false) := by
  refine ⟨fun n => rfl, ?_, ?_, ?_, ?_, ?_,
    fun n => min_le_right _ _, ?_, fun n => rfl⟩
  · norm_num [reconnectDelayMs, RECONNECT_DELAY]
  · norm_num [reconnectDelayMs, RECONNECT_DELAY]
  · norm_num [reconnectDelayMs, RECONNECT_DELAY]
  · norm_num [reconnectDelayMs, RECONNECT_DELAY]
  · norm_num [reconnectDelayMs, RECONNECT_DELAY]
  · intro n hn
    have h7 : (15 : ℚ) ≤ (3 / 2 : ℚ) ^ 7 := by norm_num
    have hmono : (3 / 2 : ℚ) ^ 7 ≤ (3 / 2 : ℚ) ^ (n - 1) :=
      pow_le_pow_right₀ (by norm_num) (by omega)
    have hge : (30000 : ℚ) ≤ 2000 * (3 / 2 : ℚ) ^ (n - 1) := by nlinarith
    unfold reconnectDelayMs RECONNECT_DELAY
    exact min_eq_right hge

/-- Witness for C5: attempt 9 is past the cap and waits exactly 30 seconds. -/
theorem reconnect_backoff_policy_witness :
    (8 : ℕ) ≤ 9 ∧ reconnectDelayMs 9 = 30000 :=
  ⟨by norm_num, reconnect_backoff_policy.2.2.2.2.2.2.2.1 9 (by norm_num)⟩

theorem ucmStep_stopped (s : UCMState) (e : UCMEvent)
    (hm : s.manualDisconnect = true) (ht : s.reconnectTimeout = false) :
    (ucmStep s e).1.manualDisconnect = true ∧
    (ucmStep s e).1.reconnectTimeout = false ∧
    (ucmStep s e).2.1 = false ∧ (ucmStep s e).2.2 = false := by
  cases e <;> simp [ucmStep, scheduleReconnect, hm, ht]

theorem ucmRun_stopped (evts : List UCMEvent) :
    ∀ s : UCMState, s.manualDisconnect = true → s.reconnectTimeout = false →
      (ucmRun s evts).2.1 = false ∧ (ucmRun s evts).2.2 = false := by
  induction evts with
  | nil => intro s _ _; exact ⟨rfl, rfl⟩
  | cons e es ih =>
      intro s hm ht
      obtain ⟨h1, h2, h3, h4⟩ := ucmStep_stopped s e hm ht
      have hr := ih (ucmStep s e).1 h1 h2
      simp [ucmRun, h3, h4, hr.1, hr.2]

/-- C3: `stop()` sets the manual-stop flag before it closes the socket and
clears any pending reconnect timer; from the resulting state, no sequence of
close events (any code), audio-send failures, audio-while-closed events or
timer firings ever schedules a reconnect or attempts a connection — only the
next `start()` (which resets the flag) can. -/
theorem stop_then_no_reconnect (s : UCMState) (evts : List UCMEvent) :
    stopTrace.indexOf StopStep.setManualStop <
      stopTrace.indexOf StopStep.closeSocket ∧
    stopTrace.contains StopStep.clearReconnectTimer = true ∧
    (shutdownSonioxConnection s).manualDisconnect = true ∧
    (shutdownSonioxConnection s).reconnectTimeout = false ∧
    (ucmRun (shutdownSonioxConnection s) evts).2.1 = false ∧
    (ucmRun (shutdownSonioxConnection s) evts).2.2 = false :=
  ⟨by decide, by decide, rfl, rfl,
   (ucmRun_stopped evts (shutdownSonioxConnection s) rfl rfl).1,
   (ucmRun_stopped evts (shutdownSonioxConnection s) rfl rfl).2⟩

/-- C6: deleting or editing a timestamp id absent from the transcript log
returns NotFound without performing any durable write — the log is
byte-for-byte unchanged and the in-memory history untouched. -/
theorem absent_id_leaves_store_unchanged (s : TranscriptState)
    (ts newText : JStr) (writeOk : Bool) (hts : ts ≠ []) (hnew : newText ≠ [])
    (habsent : ∀ l ∈ transcriptLines s.file, lineTimestamp l ≠ ts) :
    transcriptDelete s ts writeOk = (s, some TSError.notFound, []) ∧
    transcriptEdit s ts newText writeOk = (s, some TSError.notFound, []) := by
  constructor
  · unfold transcriptDelete
    rw [if_neg hts, if_pos habsent]
  · unfold transcriptEdit
    rw [if_neg (fun h => h.elim hts hnew), if_pos habsent]

/-- Witness for C6: a store holding one line keyed `t1`; deleting and editing
the absent id `t2` fail with NotFound, leaving the store untouched. -/
theorem absent_id_leaves_store_unchanged_witness :
    transcriptDelete ⟨"t1\tHello\n".toList, [⟨"t1".toList, "Hello".toList⟩]⟩
        "t2".toList true =
      (⟨"t1\tHello\n".toList, [⟨"t1".toList, "Hello".toList⟩]⟩,
        some TSError.notFound, []) ∧
    transcriptEdit ⟨"t1\tHello\n".toList, [⟨"t1".toList, "Hello".toList⟩]⟩
        "t2".toList "Bye".toList true =
      (⟨"t1\tHello\n".toList, [⟨"t1".toList, "Hello".toList⟩]⟩,
        some TSError.notFound, []) :=
  absent_id_leaves_store_unchanged
    ⟨"t1\tHello\n".toList, [⟨"t1".toList, "Hello".toList⟩]⟩
    "t2".toList "Bye".toList true (by decide) (by decide) (by decide)

/-- C2 counterexample: the append mutation (`logCaption`) at a concrete input
updates memory first, emits the feed event even though the durable write
failed, reports no error, and leaves memory diverged from the (unchanged)
log — refuting the write-then-reflect claim for all mutations. -/
theorem write_then_reflect_counterexample :
    (runMutation ⟨[], []⟩ (TSMutation.append "t".toList "A".toList) false).2.2 =
      [TSAction.memUpdate, TSAction.feedEmit] ∧
    writeThenReflect
      (runMutation ⟨[], []⟩ (TSMutation.append "t".toList "A".toList) false).2.2
      false = false ∧
    (runMutation ⟨[], []⟩ (TSMutation.append "t".toList "A".toList) false).1.mem =
      [⟨"t".toList, "A".toList⟩] ∧
    (runMutation ⟨[], []⟩ (TSMutation.append "t".toList "A".toList) false).1.file =
      [] ∧
    (runMutation ⟨[], []⟩ (TSMutation.append "t".toList "A".toList) false).2.1 =
      none ∧
    ¬ (∀ (s : TranscriptState) (m : TSMutation) (w : Bool),
        writeThenReflect (runMutation s m w).2.2 false = true ∧
        (w = false → (runMutation s m w).1 = s)) := by
  refine ⟨by decide, by decide, by decide, by decide, by decide, fun h => ?_⟩
  exact absurd
    (h ⟨[], []⟩ (TSMutation.append "t".toList "A".toList) false).1 (by decide)

/-- C2 (amended): edit and delete obey write-then-reflect — the durable
rewrite completes before the memory update and before the feed event, and a
failed durable write fails the operation leaving the store unchanged; the
append path (`logCaption`) instead updates memory first, writes the log
second, always emits the feed event, and swallows write failures, so a failed
append leaves memory ahead of the durable log. -/
theorem transcript_mutation_ordering (s : TranscriptState)
    (ts text newText : JStr) (writeOk : Bool) (htext : text ≠ []) :
    writeThenReflect (transcriptEdit s ts newText writeOk).2.2 false = true ∧
    writeThenReflect (transcriptDelete s ts writeOk).2.2 false = true ∧
    ((transcriptEdit s ts newText false).1 = s ∧
      (transcriptEdit s ts newText false).2.1 ≠ none) ∧
    ((transcriptDelete s ts false).1 = s ∧
      (transcriptDelete s ts false).2.1 ≠ none) ∧
    (logCaption s ts text true writeOk).2 =
      TSAction.memUpdate ::
        ((if writeOk then [TSAction.fileWrite] else []) ++
          [TSAction.feedEmit]) ∧
    (logCaption s ts text true false).1 =
      ⟨s.file, pushCaptionHistory s.mem ⟨ts, text⟩⟩ := by
  refine ⟨?_, ?_, ?_, ?_, ?_, ?_⟩
  · unfold transcriptEdit
    split_ifs <;> rfl
  · unfold transcriptDelete
    split_ifs <;> rfl
  · unfold transcriptEdit
    split_ifs with h1 h2 h3
    · exact ⟨rfl, by simp⟩
    · exact ⟨rfl, by simp⟩
    · exact ⟨rfl, by simp⟩
    · exact absurd rfl h3
  · unfold transcriptDelete
    split_ifs with h1 h2 h3
    · exact ⟨rfl, by simp⟩
    · exact ⟨rfl, by simp⟩
    · exact ⟨rfl, by simp⟩
    · exact absurd rfl h3
  · unfold logCaption
    rw [if_neg (by simp [htext])]
  · unfold logCaption
    rw [if_neg (by simp [htext])]
    simp

/-- Witness for C2 (amended) at a one-line store. -/
theorem transcript_mutation_ordering_witness :
    writeThenReflect
      (transcriptEdit ⟨"t1\tA\n".toList, [⟨"t1".toList, "A".toList⟩]⟩
        "t1".toList "B".toList true).2.2 false = true ∧
    (logCaption ⟨"t1\tA\n".toList, [⟨"t1".toList, "A".toList⟩]⟩
        "t2".toList "B".toList true false).1 =
      ⟨"t1\tA\n".toList,
        pushCaptionHistory [⟨"t1".toList, "A".toList⟩]
          ⟨"t2".toList, "B".toList⟩⟩ :=
  ⟨(transcript_mutation_ordering ⟨"t1\tA\n".toList, [⟨"t1".toList, "A".toList⟩]⟩
      "t2".toList "B".toList "B".toList true (by decide)).1,
   (transcript_mutation_ordering ⟨"t1\tA\n".toList, [⟨"t1".toList, "A".toList⟩]⟩
      "t2".toList "B".toList "B".toList true (by decide)).2.2.2.2.2⟩

theorem tail_append_of_left_ne_nil (xs ys : List α) (h : xs ≠ []) :
    (xs ++ ys).tail = xs.tail ++ ys := by
  cases xs with
  | nil => exact absurd rfl h
  | cons a as => rfl

theorem pushCaptionHistory_lastN (l : List TSEntry) (e : TSEntry) :
    pushCaptionHistory (lastN 1000 l) e = lastN 1000 (l ++ [e]) := by
  unfold pushCaptionHistory lastN
  by_cases hl : l.length < 1000
  · have hlen : ¬ 1000 < (l.drop (l.length - 1000) ++ [e]).length := by
      simp [List.length_drop]
      omega
    rw [if_neg hlen]
    have h0 : l.length - 1000 = 0 := by omega
    have h1 : (l ++ [e]).length - 1000 = 0 := by
      simp
      omega
    rw [h0, h1]
    simp
  · push_neg at hl
    have hlen : 1000 < (l.drop (l.length - 1000) ++ [e]).length := by
      simp [List.length_drop]
      omega
    rw [if_pos hlen]
    have hne : l.drop (l.length - 1000) ≠ [] := by
      intro hemp
      have := congrArg List.length hemp
      simp [List.length_drop] at this
      omega
    rw [tail_append_of_left_ne_nil _ _ hne, List.tail_drop]
    have h2 : (l ++ [e]).length - 1000 = l.length - 1000 + 1 := by
      simp
      omega
    rw [h2, List.drop_append_of_le_length (by omega)]

theorem appendFold_spec (es : List TSEntry) :
    ∀ (file0 : JStr) (pre : List TSEntry), (∀ e ∈ es, e.text ≠ []) →
      appendFold ⟨file0, lastN 1000 pre⟩ es =
        ⟨file0 ++ (es.map captionLogLine).flatten, lastN 1000 (pre ++ es)⟩ := by
  induction es with
  | nil =>
      intro file0 pre _
      simp [appendFold]
  | cons e es ih =>
      intro file0 pre h
      have htext : e.text ≠ [] := h e (List.mem_cons_self e es)
      unfold appendFold
      have hstep :
          (logCaption ⟨file0, lastN 1000 pre⟩ e.timestamp e.text true true).1 =
            ⟨file0 ++ captionLogLine e, lastN 1000 (pre ++ [e])⟩ := by
        unfold logCaption
        rw [if_neg (by simp [htext])]
        have hmk : (⟨e.timestamp, e.text⟩ : TSEntry) = e := rfl
        simp [hmk, pushCaptionHistory_lastN]
      rw [hstep,
        ih (file0 ++ captionLogLine e) (pre ++ [e])
          (fun x hx => h x (List.mem_cons_of_mem e hx))]
      simp [List.append_assoc]

/-- C10: after any sequence of appended (final, nonempty) captions, the
in-memory caption history is exactly the suffix of at most the 1000 most
recent entries, while the durable log holds the line of every appended
caption. -/
theorem caption_history_window (es : List TSEntry)
    (h : ∀ e ∈ es, e.text ≠ []) :
    (appendFold ⟨[], []⟩ es).mem = lastN 1000 es ∧
    (appendFold ⟨[], []⟩ es).file = (es.map captionLogLine).flatten := by
  have heq := appendFold_spec es [] [] h
  have h0 : (⟨[], []⟩ : TranscriptState) = ⟨[], lastN 1000 []⟩ := rfl
  rw [h0, heq]
  simp

/-- Witness for C10 at a two-caption session. -/
theorem caption_history_window_witness :
    (appendFold ⟨[], []⟩
        [⟨"t1".toList, "A".toList⟩, ⟨"t2".toList, "B".toList⟩]).mem =
      lastN 1000 [⟨"t1".toList, "A".toList⟩, ⟨"t2".toList, "B".toList⟩] ∧
    (appendFold ⟨[], []⟩
        [⟨"t1".toList, "A".toList⟩, ⟨"t2".toList, "B".toList⟩]).file =
      ([⟨"t1".toList, "A".toList⟩,
        (⟨"t2".toList, "B".toList⟩ : TSEntry)].map captionLogLine).flatten :=
  caption_history_window
    [⟨"t1".toList, "A".toList⟩, ⟨"t2".toList, "B".toList⟩] (by decide)

/-- C4 counterexample: at the spec's two-line example caption, the POST
failing with status 400 and a `Can't parse` multi-line error body is retried
zero times, not once — the retry guard requires the multi-line flag, which
`publish` unconditionally sets to false. -/
theorem multiline_retry_counterexample :
    buildPublishAttempt epExampleCaption = some epExampleAttempt ∧
    jsIncludes epParseErrorBody "Can't parse".toList = true ∧
    1 < epExampleAttempt.cleanedLines.length ∧
    publishRetryCount epExampleAttempt 400 epParseErrorBody = 0 := by
  refine ⟨by decide, by decide, by decide, by decide⟩

/-- C4 (amended): no publish failure is ever retried — the single-line retry
branch is unreachable because every attempt is built with
`isMultiLine = false`, so each failure (including 400 `Can't parse`
responses) is logged and dropped. -/
theorem publish_never_retries (caption : JStr) (a : PublishAttempt)
    (h : buildPublishAttempt caption = some a) (status : ℕ) (body : JStr) :
    a.isMultiLine = false ∧ publishRetries a status body = false ∧
    publishRetryCount a status body = 0 := by
  unfold buildPublishAttempt at h
  cases hyt : ytPublishCaption caption with
  | none => rw [hyt] at h; exact absurd h (by simp)
  | some fc =>
      rw [hyt] at h
      have ha : a = ⟨ytCleanedLines caption, false, fc⟩ :=
        (Option.some.inj h).symm
      subst ha
      refine ⟨rfl, ?_, ?_⟩
      · simp [publishRetries]
      · simp [publishRetryCount, publishRetries]

/-- Witness for C4 (amended) at the spec's example caption and a 400
`Can't parse` error response. -/
theorem publish_never_retries_witness :
    epExampleAttempt.isMultiLine = false ∧
    publishRetries epExampleAttempt 400 epParseErrorBody = false ∧
    publishRetryCount epExampleAttempt 400 epParseErrorBody = 0 :=
  publish_never_retries epExampleCaption epExampleAttempt (by decide)
    400 epParseErrorBody

theorem receivedCaptions_append (a b : List AudMsg) :
    receivedCaptions (a ++ b) = receivedCaptions a ++ receivedCaptions b := by
  simp [receivedCaptions]

theorem receivedCaptions_mapCaption (l : List JStr) :
    receivedCaptions (l.map AudMsg.captionMsg) = l := by
  induction l with
  | nil => rfl
  | cons a t ih =>
      simp only [List.map_cons, receivedCaptions, List.filterMap_cons] at ih ⊢
      rw [ih]

theorem runAud_client_received (evts : List AudEvent) :
    ∀ (s : AudState) (i : ℕ) (c : AudClient), s.clients[i]? = some c →
      ∃ extra, (runAud s evts).clients[i]? =
          some ⟨c.cid, c.received ++ extra⟩ ∧
        receivedCaptions extra = appendedTexts evts := by
  induction evts with
  | nil =>
      intro s i c hc
      refine ⟨[], ?_, rfl⟩
      simpa [runAud] using hc
  | cons e es ih =>
      intro s i c hc
      have hlt : i < s.clients.length := (List.getElem?_eq_some.mp hc).1
      simp only [runAud]
      cases e with
      | connect cid =>
          have hc' : (audStep s (AudEvent.connect cid)).clients[i]? = some c := by
            simp only [audStep, connectStep]
            rw [List.getElem?_append, if_pos hlt]
            exact hc
          obtain ⟨extra, h1, h2⟩ := ih _ i c hc'
          refine ⟨extra, h1, ?_⟩
          rw [h2]
          simp [appendedTexts, List.filterMap_cons]
      | appendCaption t =>
          have hc' : (audStep s (AudEvent.appendCaption t)).clients[i]? =
              some ⟨c.cid, c.received ++ [AudMsg.captionMsg t]⟩ := by
            simp only [audStep, appendStep]
            rw [List.getElem?_map, hc]
            rfl
          obtain ⟨extra, h1, h2⟩ := ih _ i _ hc'
          refine ⟨AudMsg.captionMsg t :: extra, ?_, ?_⟩
          · rw [h1]
            simp
          · simp only [receivedCaptions, appendedTexts,
              List.filterMap_cons] at h2 ⊢
            rw [h2]
      | setStatus st =>
          have hc' : (audStep s (AudEvent.setStatus st)).clients[i]? =
              some ⟨c.cid, c.received ++ [AudMsg.statusMsg st]⟩ := by
            simp only [audStep, statusStep]
            rw [List.getElem?_map, hc]
            rfl
          obtain ⟨extra, h1, h2⟩ := ih _ i _ hc'
          refine ⟨AudMsg.statusMsg st :: extra, ?_, ?_⟩
          · rw [h1]
            simp
          · simp only [receivedCaptions, appendedTexts,
              List.filterMap_cons] at h2 ⊢
            rw [h2]

/-- C8 (amended): an audience connection made while the service status is in
`['ready', 'live']` first receives the full persisted transcript, read fresh
from the log, and thereafter exactly the captions appended after the
connection, in order — so a caption appended concurrently appears exactly
once; connections made while the status is inactive receive no historical
replay. -/
theorem audience_snapshot_then_stream (s : AudState) (cid : ℕ)
    (evts : List AudEvent) (hact : statusActive s.status = true) :
    ((runAud (connectStep s cid) evts).clients[s.clients.length]?).map
        (fun c => receivedCaptions c.received) =
      some (s.file ++ appendedTexts evts) := by
  have hclient : (connectStep s cid).clients[s.clients.length]? =
      some ⟨cid, AudMsg.statusMsg s.status ::
        s.file.map AudMsg.captionMsg⟩ := by
    simp only [connectStep, hact, if_true]
    exact List.getElem?_concat_length _ _
  obtain ⟨extra, h1, h2⟩ := runAud_client_received evts _ _ _ hclient
  rw [h1]
  have hrc : receivedCaptions
      ((AudMsg.statusMsg s.status :: s.file.map AudMsg.captionMsg) ++ extra) =
      s.file ++ appendedTexts evts := by
    rw [receivedCaptions_append]
    have hs : receivedCaptions
        (AudMsg.statusMsg s.status :: s.file.map AudMsg.captionMsg) =
        receivedCaptions (s.file.map AudMsg.captionMsg) := by
      simp [receivedCaptions, List.filterMap_cons]
    rw [hs, receivedCaptions_mapCaption, h2]
  simpa using hrc

/-- Witness for C8 (amended): a viewer connecting while the service is ready
receives the persisted caption `old` first and the concurrently appended
caption `new` exactly once after it. -/
theorem audience_snapshot_then_stream_witness :
    ((runAud (connectStep ⟨["old".toList], SStatus.ready, []⟩ 7)
          [AudEvent.appendCaption "new".toList]).clients[(0 : ℕ)]?).map
        (fun c => receivedCaptions c.received) =
      some (["old".toList] ++
        appendedTexts [AudEvent.appendCaption "new".toList]) :=
  audience_snapshot_then_stream ⟨["old".toList], SStatus.ready, []⟩ 7
    [AudEvent.appendCaption "new".toList] rfl

/-- C8 counterexample: a viewer connecting while the service status is
`offline` (with a nonempty persisted transcript from an earlier session)
receives no historical replay; once the service turns ready and a caption
arrives, the viewer has received the live caption but never the persisted
transcript — refuting the claim that every new connection receives the full
persisted transcript before any live caption. -/
theorem audience_replay_counterexample :
    statusActive preServiceState.status = false ∧
    preServiceState.file = ["old".toList] ∧
    ((runAud (connectStep preServiceState 0)
          preServiceEvents).clients[(0 : ℕ)]?).map
        (fun c => receivedCaptions c.received) = some ["new".toList] ∧
    ((runAud (connectStep preServiceState 0)
          preServiceEvents).clients[(0 : ℕ)]?).map
        (fun c => receivedCaptions c.received) ≠
      some (preServiceState.file ++ appendedTexts preServiceEvents) := by
  refine ⟨by decide, by decide, by decide, by decide⟩
